import Mathlib

/-!
Verification development for a line-oriented TCP chat relay (src/main.rs).

The program accepts TCP connections; each connection runs a task that races
reading one newline-terminated line from its own socket against receiving a
broadcast message, publishing each read line (paired with the peer address)
to a tokio broadcast channel of capacity 10, and writing every received
message whose origin address differs from its own to its socket.

The embedding below models:
- the broadcast channel (`Broadcast`): a log of all published messages, a
  retention capacity, and a count of live receiver handles; `send` fails
  exactly when no receiver exists (tokio `broadcast::Sender::send` returns
  `Err` with zero receivers), and `recv` for a receiver position reports a
  `lagged` outcome when the position has fallen more than `capacity` behind;
- `read_line` on a buffered reader: appends to the accumulation buffer all
  bytes up to and including the first newline, or everything remaining at
  end of stream, returning the number of bytes appended;
- a connection session (`Session`): peer address, remaining socket input,
  line accumulation buffer, bytes written to the socket write half, and the
  receiver position; the two `select!` branches are `readStep` (lines 62-67
  of main.rs) and `recvStep` (lines 69-75); every `.unwrap()` on an `Err`
  is modelled as the `fatal` outcome (the task panics and is torn down);
- a whole-process `System` of sessions plus the shared channel, and the
  acceptor loop (`acceptorRun`) which subscribes and spawns a session per
  accepted connection and aborts the process on an accept error (line 41,
  `listener.accept().await.unwrap()`).
-/

namespace Chat

/-- A peer socket address, abstracted as a natural number (unique per live
connection). -/
abbrev Addr := Nat

/-- A broadcast message as sent by `tx.send((line.clone(), addr))`: the
line's bytes paired with the originating peer address. -/
abbrev Message := List Char × Addr

/-- The tokio broadcast channel, `broadcast::channel(10)`: retention
capacity, the log of every message ever published (oldest first), and the
number of live receiver handles. -/
structure Broadcast where
  capacity : Nat
  log : List Message
  receiverCount : Nat
deriving DecidableEq

/-- tokio `broadcast::Sender::send`: fails (returns `Err`, delivering to no
one) exactly when zero receiver handles exist; otherwise appends the message
to the channel. -/
def Broadcast.send (b : Broadcast) (m : Message) : Option Broadcast :=
  if b.receiverCount = 0 then none
  else some { b with log := b.log ++ [m] }

/-- Possible results of `broadcast::Receiver::recv` for a receiver position:
the next message, a lagged notification (position fell more than `capacity`
behind; the receiver is advanced to the oldest retained message), or pending
(no message available yet; the call would suspend). -/
inductive RecvResult where
  | ok (m : Message) (newPos : Nat)
  | lagged (missed : Nat) (newPos : Nat)
  | pending
deriving DecidableEq

/-- tokio `broadcast::Receiver::recv` for a receiver at position `pos` in
the log: lagged when more than `capacity` messages are outstanding, the
message at `pos` otherwise, pending when the position is at the end. -/
def Broadcast.recv (b : Broadcast) (pos : Nat) : RecvResult :=
  if pos < b.log.length then
    if b.capacity < b.log.length - pos then
      RecvResult.lagged (b.log.length - b.capacity - pos) (b.log.length - b.capacity)
    else
      RecvResult.ok (b.log.getD pos (([], 0) : Message)) (pos + 1)
  else RecvResult.pending

/-- Splits a byte stream at the first newline: returns the first line
including its terminating newline (or everything, when no newline occurs
before end of stream) together with the rest of the stream. -/
def splitLine : List Char → List Char × List Char
  | [] => ([], [])
  | c :: rest =>
      if c = '\n' then ([c], rest)
      else
        let p := splitLine rest
        (c :: p.1, p.2)

/-- tokio `AsyncBufReadExt::read_line(&mut line)`: appends to the
accumulation buffer `line` all bytes up to and including the first newline
(or up to end of stream), returning the number of bytes appended, the new
buffer contents, and the remaining stream. Returns 0 exactly at end of
stream with nothing read. -/
def read_line (input line : List Char) : Nat × List Char × List Char :=
  let p := splitLine input
  (p.1.length, line ++ p.1, p.2)

/-- The per-connection state owned by one spawned task: the peer address
`addr`, the unread socket input, the line accumulation buffer (`let mut
line = String::new()`), the bytes written to the socket's write half, and
the broadcast receiver position of `rx`. -/
structure Session where
  addr : Addr
  input : List Char
  line : List Char
  output : List Char
  rxPos : Nat
deriving DecidableEq

/-- Result of one iteration of the session's `select!` loop: continue with
updated session and channel, exit the loop via `break` (the session closes),
or a panic of the task from `.unwrap()` on an `Err` (fatal to this session
only). -/
inductive Outcome where
  | next (s : Session) (b : Broadcast)
  | closed (s : Session) (b : Broadcast)
  | fatal (b : Broadcast)
deriving DecidableEq

/-- The channel state carried by an outcome. -/
def Outcome.bus : Outcome → Broadcast
  | next _ b => b
  | closed _ b => b
  | fatal b => b

/-- The `reader.read_line` branch of the `select!` (main.rs lines 62-67):
a zero-length read breaks out of the loop; otherwise the line is published
as `(line.clone(), addr)` — `.unwrap()` panics if `send` fails — and the
buffer is cleared (`line.clear()`). -/
def Session.readStep (s : Session) (b : Broadcast) : Outcome :=
  let r := read_line s.input s.line
  if r.1 = 0 then Outcome.closed s b
  else
    match b.send (r.2.1, s.addr) with
    | none => Outcome.fatal b
    | some b2 => Outcome.next { s with input := r.2.2, line := [] } b2

/-- The `rx.recv()` branch of the `select!` (main.rs lines 69-75):
`result.unwrap()` panics on a lagged (or closed) error; an `Ok` message is
written to the socket's write half only when its origin address differs
from this session's own address (`if addr != other_addr`). -/
def Session.recvStep (s : Session) (b : Broadcast) : Outcome :=
  match b.recv s.rxPos with
  | RecvResult.pending => Outcome.next s b
  | RecvResult.lagged _ _ => Outcome.fatal b
  | RecvResult.ok m newPos =>
      if s.addr ≠ m.2 then
        Outcome.next { s with output := s.output ++ m.1, rxPos := newPos } b
      else
        Outcome.next { s with rxPos := newPos } b

/-- Which event resolves a `select!` iteration: the read branch, the
receive branch, or an I/O error (failed socket read or `write_all`) whose
`.unwrap()` panics the task. -/
inductive Branch where
  | read
  | recv
  | fail
deriving DecidableEq

/-- One iteration of the session loop, resolved by the given branch. -/
def Session.step (s : Session) (b : Broadcast) : Branch → Outcome
  | Branch.read => s.readStep b
  | Branch.recv => s.recvStep b
  | Branch.fail => Outcome.fatal b

/-- Runs the session loop under a schedule of branch resolutions, stopping
early when the session closes or its task panics. -/
def run : List Branch → Session → Broadcast → Outcome
  | [], s, b => Outcome.next s b
  | br :: rest, s, b =>
    match s.step b br with
    | Outcome.next s2 b2 => run rest s2 b2
    | o => o

/-- The whole process: the shared broadcast channel and the per-connection
session tasks. A slot holds `none` once its session's task has finished
(loop exited or task panicked). -/
structure System where
  bus : Broadcast
  sessions : List (Option Session)
deriving DecidableEq

/-- Number of live sessions, i.e. of live broadcast receiver handles, since
each live session owns exactly one. -/
def countSome : List (Option Session) → Nat
  | [] => 0
  | some _ :: rest => countSome rest + 1
  | none :: rest => countSome rest

/-- One `select!` iteration of the session in slot `i`, resolved by branch
`br`, lifted to the whole process: only that session's slot and the shared
channel change; when the session closes or its task panics, its slot is
emptied and its receiver handle is dropped (decrementing the receiver
count), exactly the teardown of one spawned task. -/
def System.stepAt (sys : System) (i : Nat) (br : Branch) : System :=
  match sys.sessions.getD i none with
  | none => sys
  | some s =>
    match s.step sys.bus br with
    | Outcome.next s2 b2 => { bus := b2, sessions := sys.sessions.set i (some s2) }
    | Outcome.closed _ b2 =>
        { bus := { b2 with receiverCount := b2.receiverCount - 1 },
          sessions := sys.sessions.set i none }
    | Outcome.fatal b2 =>
        { bus := { b2 with receiverCount := b2.receiverCount - 1 },
          sessions := sys.sessions.set i none }

/-- An event observed by the acceptor loop: a new connection (with its peer
address and the bytes the client will send), or an accept error. -/
inductive AcceptEvent where
  | conn (a : Addr) (input : List Char)
  | err
deriving DecidableEq

/-- `tx.subscribe()`: registers a fresh receiver handle positioned after
every message published so far (messages published before subscribing are
never seen). -/
def Broadcast.subscribe (b : Broadcast) : Broadcast × Nat :=
  ({ b with receiverCount := b.receiverCount + 1 }, b.log.length)

/-- The body of the acceptor loop after a successful accept (main.rs lines
41-45): clone the sender, subscribe, and spawn a fresh session task for the
connection. -/
def spawnSession (sys : System) (a : Addr) (input : List Char) : System :=
  let p := sys.bus.subscribe
  { bus := p.1,
    sessions := sys.sessions ++
      [some { addr := a, input := input, line := [], output := [], rxPos := p.2 }] }

/-- The acceptor loop (main.rs lines 40-45) consuming a sequence of accept
events: each connection spawns a session; `listener.accept().await.unwrap()`
panics in `main` on an accept error, aborting the whole process — the `Bool`
records whether the process aborted, and later events are never processed. -/
def acceptorRun : List AcceptEvent → System → System × Bool
  | [], sys => (sys, false)
  | AcceptEvent.conn a inp :: rest, sys => acceptorRun rest (spawnSession sys a inp)
  | AcceptEvent.err :: _, sys => (sys, true)

/-- Splitting a newline-free stream consumes it whole with no remainder. -/
theorem splitLine_no_newline (l : List Char) (h : '\n' ∉ l) : splitLine l = (l, []) := by
  induction l with
  | nil => rfl
  | cons c rest ih =>
    have hc : ¬ c = '\n' := fun hcn => h (hcn ▸ List.mem_cons_self c rest)
    have hr : '\n' ∉ rest := fun hm => h (List.mem_cons_of_mem c hm)
    simp [splitLine, hc, ih hr]

/-- Splitting a stream that starts with a newline-free line followed by a
newline yields exactly that line with its newline, and the rest. -/
theorem splitLine_append (l rest : List Char) (h : '\n' ∉ l) :
    splitLine (l ++ '\n' :: rest) = (l ++ ['\n'], rest) := by
  induction l with
  | nil => simp [splitLine]
  | cons c t ih =>
    have hc : ¬ c = '\n' := fun hcn => h (hcn ▸ List.mem_cons_self c t)
    have ht : '\n' ∉ t := fun hm => h (List.mem_cons_of_mem c hm)
    simp [splitLine, hc, ih ht]

/-- Splitting a nonempty stream always yields a nonempty first line. -/
theorem splitLine_fst_ne_nil (input : List Char) (h : input ≠ []) :
    (splitLine input).1 ≠ [] := by
  cases input with
  | nil => exact absurd rfl h
  | cons c rest => by_cases hc : c = '\n' <;> simp [splitLine, hc]

/-- A read branch iteration on a stream starting with a complete line, with
an empty accumulation buffer and a live subscriber: the line (newline
included) is published with this session's address, the buffer ends cleared,
and the stream advances past the line. -/
theorem readStep_line (a : Addr) (l rest out : List Char) (p : Nat) (b : Broadcast)
    (hl : '\n' ∉ l) (hb : b.receiverCount ≠ 0) :
    Session.readStep ⟨a, l ++ '\n' :: rest, [], out, p⟩ b =
      Outcome.next ⟨a, rest, [], out, p⟩ { b with log := b.log ++ [(l ++ ['\n'], a)] } := by
  simp [Session.readStep, read_line, splitLine_append l rest hl, Broadcast.send, hb]

/-- C1: when the subscriber handle delivers a message, the session discards
it (writing nothing to its socket) if the message's origin address equals
its own address, and otherwise writes exactly the message's bytes to the
socket's write half — so a line published by a client is never written back
to that client. -/
theorem recv_self_exclusion (s : Session) (b : Broadcast) (m : Message) (p : Nat)
    (h : b.recv s.rxPos = RecvResult.ok m p) :
    (m.2 = s.addr → Session.recvStep s b = Outcome.next { s with rxPos := p } b) ∧
    (m.2 ≠ s.addr → Session.recvStep s b =
      Outcome.next { s with output := s.output ++ m.1, rxPos := p } b) := by
  constructor
  · intro hm
    simp [Session.recvStep, h, hm]
  · intro hm
    have hm2 : s.addr ≠ m.2 := fun hc => hm hc.symm
    simp [Session.recvStep, h, hm2]

/-- Witness for C1: a channel holding one message from address 5; the
session at address 7 writes its bytes out, while the originating session at
address 5 discards it with its output untouched. -/
theorem recv_self_exclusion_witness :
    (Broadcast.recv ⟨10, [(['h', 'i', '\n'], 5)], 2⟩ 0 =
      RecvResult.ok ((['h', 'i', '\n'], 5) : Message) 1) ∧
    Session.recvStep ⟨7, [], [], [], 0⟩ ⟨10, [(['h', 'i', '\n'], 5)], 2⟩ =
      Outcome.next ⟨7, [], [], ['h', 'i', '\n'], 1⟩ ⟨10, [(['h', 'i', '\n'], 5)], 2⟩ ∧
    Session.recvStep ⟨5, [], [], [], 0⟩ ⟨10, [(['h', 'i', '\n'], 5)], 2⟩ =
      Outcome.next ⟨5, [], [], [], 1⟩ ⟨10, [(['h', 'i', '\n'], 5)], 2⟩ :=
  ⟨by decide,
   (recv_self_exclusion ⟨7, [], [], [], 0⟩ ⟨10, [(['h', 'i', '\n'], 5)], 2⟩
      ((['h', 'i', '\n'], 5) : Message) 1 (by decide)).2 (by decide),
   (recv_self_exclusion ⟨5, [], [], [], 0⟩ ⟨10, [(['h', 'i', '\n'], 5)], 2⟩
      ((['h', 'i', '\n'], 5) : Message) 1 (by decide)).1 (by decide)⟩

/-- C2 counterexample: with retention capacity 1 and three published
messages, `recv` at position 0 reports the distinct lagged outcome, but the
session's `result.unwrap()` panics the task (fatal outcome) — the loop does
not continue to the next available message as the claim states. -/
theorem lagged_recv_cex :
    Broadcast.recv ⟨1, [(['a'], 3), (['b'], 3), (['c'], 3)], 1⟩ 0 = RecvResult.lagged 2 2 ∧
    Session.recvStep ⟨9, [], [], [], 0⟩ ⟨1, [(['a'], 3), (['b'], 3), (['c'], 3)], 1⟩ =
      Outcome.fatal ⟨1, [(['a'], 3), (['b'], 3), (['c'], 3)], 1⟩ ∧
    Session.recvStep ⟨9, [], [], [], 0⟩ ⟨1, [(['a'], 3), (['b'], 3), (['c'], 3)], 1⟩ ≠
      Outcome.next ⟨9, [], [], [], 2⟩ ⟨1, [(['a'], 3), (['b'], 3), (['c'], 3)], 1⟩ := by
  decide

/-- C2 (amended): when a subscriber handle has fallen behind by more than
the retention capacity, `recv` reports this as the distinct lagged outcome
(never corrupted or shifted message content), but this session unwraps the
error, so the task terminates fatally instead of continuing from the next
available message. -/
theorem lagged_recv_fatal (s : Session) (b : Broadcast)
    (hlt : s.rxPos < b.log.length) (hcap : b.capacity < b.log.length - s.rxPos) :
    b.recv s.rxPos =
      RecvResult.lagged (b.log.length - b.capacity - s.rxPos) (b.log.length - b.capacity) ∧
    Session.recvStep s b = Outcome.fatal b := by
  have h1 : b.recv s.rxPos =
      RecvResult.lagged (b.log.length - b.capacity - s.rxPos) (b.log.length - b.capacity) := by
    simp [Broadcast.recv, hlt, hcap]
  exact ⟨h1, by simp [Session.recvStep, h1]⟩

/-- Witness for C2's amended theorem at a concrete lagging receiver. -/
theorem lagged_recv_fatal_witness :
    (0 < 2 ∧ 1 < 2 - 0) ∧
    Broadcast.recv ⟨1, [(['a'], 3), (['b'], 3)], 1⟩ 0 = RecvResult.lagged 1 1 ∧
    Session.recvStep ⟨9, [], [], [], 0⟩ ⟨1, [(['a'], 3), (['b'], 3)], 1⟩ =
      Outcome.fatal ⟨1, [(['a'], 3), (['b'], 3)], 1⟩ :=
  ⟨by decide,
   lagged_recv_fatal ⟨9, [], [], [], 0⟩ ⟨1, [(['a'], 3), (['b'], 3)], 1⟩
     (by decide) (by decide)⟩

/-- C3 counterexample: with zero subscribers, `send` returns an error (not
a silent no-op success), and the session's read branch hits the `unwrap`
panic (fatal outcome) instead of continuing its loop unaffected. -/
theorem send_no_subscribers_cex :
    Broadcast.send ⟨10, [], 0⟩ ((['h', 'i', '\n'], 5) : Message) = none ∧
    Session.readStep ⟨5, ['h', 'i', '\n'], [], [], 0⟩ ⟨10, [], 0⟩ =
      Outcome.fatal ⟨10, [], 0⟩ := by
  decide

/-- C3 (amended): calling `send` with zero subscribers returns an error
result and delivers the message to no one; because the session unwraps this
result, a publish in that situation would panic the session's task rather
than let its loop continue (within a running session the branch is
unreachable, since the session's own subscriber handle is live). -/
theorem send_no_subscribers_fatal (b : Broadcast) (m : Message)
    (h : b.receiverCount = 0) :
    b.send m = none ∧
    ∀ s : Session, s.input ≠ [] → Session.readStep s b = Outcome.fatal b := by
  refine ⟨by simp [Broadcast.send, h], fun s hs => ?_⟩
  have hne := splitLine_fst_ne_nil s.input hs
  simp [Session.readStep, read_line, Broadcast.send, h, hne]

/-- Witness for C3's amended theorem at a concrete channel and session. -/
theorem send_no_subscribers_fatal_witness :
    (Broadcast.receiverCount ⟨10, [], 0⟩ = 0) ∧
    Session.readStep ⟨5, ['h', '\n'], [], [], 0⟩ ⟨10, [], 0⟩ = Outcome.fatal ⟨10, [], 0⟩ :=
  ⟨rfl, (send_no_subscribers_fatal ⟨10, [], 0⟩ ((['x'], 1) : Message) rfl).2
      ⟨5, ['h', '\n'], [], [], 0⟩ (by decide)⟩

/-- C4: the accumulation buffer is cleared after each successful line
extraction: on an input stream holding a first line then a second line,
the first read branch iteration publishes exactly the first line (leaving
the buffer empty) and the next publishes exactly the second line — no
published message concatenates content from two distinct reads. -/
theorem line_buffer_cleared (l1 l2 rest out : List Char) (h1 : '\n' ∉ l1)
    (h2 : '\n' ∉ l2) (a : Addr) (p : Nat) (b : Broadcast) (hb : b.receiverCount ≠ 0) :
    Session.readStep ⟨a, l1 ++ '\n' :: (l2 ++ '\n' :: rest), [], out, p⟩ b =
      Outcome.next ⟨a, l2 ++ '\n' :: rest, [], out, p⟩
        { b with log := b.log ++ [(l1 ++ ['\n'], a)] } ∧
    Session.readStep ⟨a, l2 ++ '\n' :: rest, [], out, p⟩
        { b with log := b.log ++ [(l1 ++ ['\n'], a)] } =
      Outcome.next ⟨a, rest, [], out, p⟩
        { b with log := b.log ++ [(l1 ++ ['\n'], a), (l2 ++ ['\n'], a)] } := by
  constructor
  · exact readStep_line a l1 (l2 ++ '\n' :: rest) out p b h1 hb
  · have h := readStep_line a l2 rest out p
      { b with log := b.log ++ [(l1 ++ ['\n'], a)] } h2 hb
    simpa using h

/-- Witness for C4 on the spec's own example: the stream hello-newline
world-newline publishes exactly hello-newline, then exactly world-newline. -/
theorem line_buffer_cleared_witness :
    ('\n' ∉ ['h', 'e', 'l', 'l', 'o']) ∧ ('\n' ∉ ['w', 'o', 'r', 'l', 'd']) ∧
    (Broadcast.receiverCount ⟨10, [], 1⟩ ≠ 0) ∧
    (Session.readStep
        ⟨5, ['h', 'e', 'l', 'l', 'o'] ++ '\n' :: (['w', 'o', 'r', 'l', 'd'] ++ '\n' :: []),
         [], [], 0⟩ ⟨10, [], 1⟩ =
      Outcome.next ⟨5, ['w', 'o', 'r', 'l', 'd'] ++ '\n' :: [], [], [], 0⟩
        ⟨10, [(['h', 'e', 'l', 'l', 'o'] ++ ['\n'], 5)], 1⟩) ∧
    (Session.readStep ⟨5, ['w', 'o', 'r', 'l', 'd'] ++ '\n' :: [], [], [], 0⟩
        ⟨10, [(['h', 'e', 'l', 'l', 'o'] ++ ['\n'], 5)], 1⟩ =
      Outcome.next ⟨5, [], [], [], 0⟩
        ⟨10, [(['h', 'e', 'l', 'l', 'o'] ++ ['\n'], 5),
              (['w', 'o', 'r', 'l', 'd'] ++ ['\n'], 5)], 1⟩) :=
  ⟨by decide, by decide, by decide,
   (line_buffer_cleared ['h', 'e', 'l', 'l', 'o'] ['w', 'o', 'r', 'l', 'd'] [] [] (by decide)
      (by decide) 5 0 ⟨10, [], 1⟩ (by decide)).1,
   (line_buffer_cleared ['h', 'e', 'l', 'l', 'o'] ['w', 'o', 'r', 'l', 'd'] [] [] (by decide)
      (by decide) 5 0 ⟨10, [], 1⟩ (by decide)).2⟩

/-- A receive branch iteration leaves the shared channel untouched and
either panics the task or continues with the session's socket input
unchanged. -/
theorem recvStep_preserves (s : Session) (b : Broadcast) :
    Session.recvStep s b = Outcome.fatal b ∨
    ∃ s2, Session.recvStep s b = Outcome.next s2 b ∧ s2.input = s.input := by
  cases h : b.recv s.rxPos with
  | pending => exact Or.inr ⟨s, by simp [Session.recvStep, h], rfl⟩
  | lagged n p => exact Or.inl (by simp [Session.recvStep, h])
  | ok m p =>
    by_cases hm : s.addr = m.2
    · exact Or.inr ⟨{ s with rxPos := p }, by simp [Session.recvStep, h, hm], rfl⟩
    · exact Or.inr ⟨{ s with output := s.output ++ m.1, rxPos := p },
        by simp [Session.recvStep, h, hm], rfl⟩

/-- A session whose socket input is exhausted never changes the shared
channel, under any schedule of loop iterations. -/
theorem run_empty_input (sched : List Branch) :
    ∀ s : Session, ∀ b : Broadcast, s.input = [] → (run sched s b).bus = b := by
  induction sched with
  | nil => intro s b _; rfl
  | cons br rest ih =>
    intro s b h
    cases br with
    | read =>
      have hr : Session.step s b Branch.read = Outcome.closed s b := by
        simp [Session.step, Session.readStep, read_line, h, splitLine]
      simp [run, hr, Outcome.bus]
    | recv =>
      rcases recvStep_preserves s b with hf | ⟨s2, hs2, hin⟩
      · simp [run, Session.step, hf, Outcome.bus]
      · simp only [run, Session.step, hs2]
        exact ih s2 b (hin.trans h)
    | fail => simp [run, Session.step, Outcome.bus]

/-- C5: a session whose stream reaches end of stream before any bytes were
sent: the zero-length read makes the read branch close the session (exit
the loop), and under any schedule of loop iterations the session never
publishes anything — the channel is left exactly as it was. -/
theorem eof_without_bytes_closes (s : Session) (b : Broadcast) (h : s.input = []) :
    Session.readStep s b = Outcome.closed s b ∧
    ∀ sched : List Branch, (run sched s b).bus = b := by
  constructor
  · simp [Session.readStep, read_line, h, splitLine]
  · intro sched
    exact run_empty_input sched s b h

/-- Witness for C5: a freshly accepted session with an already-closed
stream closes without publishing. -/
theorem eof_without_bytes_closes_witness :
    (Session.input ⟨5, [], [], [], 0⟩ = []) ∧
    Session.readStep ⟨5, [], [], [], 0⟩ ⟨10, [], 1⟩ =
      Outcome.closed ⟨5, [], [], [], 0⟩ ⟨10, [], 1⟩ ∧
    (run [Branch.recv, Branch.read] ⟨5, [], [], [], 0⟩ ⟨10, [], 1⟩).bus = ⟨10, [], 1⟩ :=
  ⟨rfl,
   (eof_without_bytes_closes ⟨5, [], [], [], 0⟩ ⟨10, [], 1⟩ rfl).1,
   (eof_without_bytes_closes ⟨5, [], [], [], 0⟩ ⟨10, [], 1⟩ rfl).2
     [Branch.recv, Branch.read]⟩

/-- C10: when the stream ends after bytes with no terminating newline, the
read branch still publishes that content verbatim — no newline appended —
and the following iteration's zero-length read closes the session. -/
theorem eof_flushes_unterminated_line (l out : List Char) (a : Addr) (p : Nat)
    (hne : l ≠ []) (hnl : '\n' ∉ l) (b : Broadcast) (hb : b.receiverCount ≠ 0) :
    Session.readStep ⟨a, l, [], out, p⟩ b =
      Outcome.next ⟨a, [], [], out, p⟩ { b with log := b.log ++ [(l, a)] } ∧
    Session.readStep ⟨a, [], [], out, p⟩ { b with log := b.log ++ [(l, a)] } =
      Outcome.closed ⟨a, [], [], out, p⟩ { b with log := b.log ++ [(l, a)] } := by
  constructor
  · have hsp := splitLine_no_newline l hnl
    have hlen : l.length ≠ 0 := fun h0 => hne (List.length_eq_zero.mp h0)
    simp [Session.readStep, read_line, hsp, hlen, Broadcast.send, hb]
  · simp [Session.readStep, read_line, splitLine]

/-- Witness for C10: a client sending two bytes and closing without a
newline still gets its final content published, newline-free. -/
theorem eof_flushes_unterminated_line_witness :
    (['h', 'i'] ≠ ([] : List Char)) ∧ ('\n' ∉ ['h', 'i']) ∧
    (Broadcast.receiverCount ⟨10, [], 1⟩ ≠ 0) ∧
    Session.readStep ⟨5, ['h', 'i'], [], [], 0⟩ ⟨10, [], 1⟩ =
      Outcome.next ⟨5, [], [], [], 0⟩ ⟨10, [(['h', 'i'], 5)], 1⟩ ∧
    Session.readStep ⟨5, [], [], [], 0⟩ ⟨10, [(['h', 'i'], 5)], 1⟩ =
      Outcome.closed ⟨5, [], [], [], 0⟩ ⟨10, [(['h', 'i'], 5)], 1⟩ :=
  ⟨by decide, by decide, by decide,
   (eof_flushes_unterminated_line ['h', 'i'] [] 5 0 (by decide) (by decide)
      ⟨10, [], 1⟩ (by decide)).1,
   (eof_flushes_unterminated_line ['h', 'i'] [] 5 0 (by decide) (by decide)
      ⟨10, [], 1⟩ (by decide)).2⟩

/-- C6: the relay is verbatim and the newline convention is consistent
between the read and write paths: the exact bytes the read branch consumes
from the sender's stream (the line including its newline) are the bytes
published, and a receiving session with a different address appends exactly
those bytes, unmodified, to its socket's write half. -/
theorem verbatim_relay (l rest out rin rline rout : List Char) (a ra : Addr)
    (b : Broadcast) (hl : '\n' ∉ l) (hb : b.receiverCount ≠ 0) (hra : ra ≠ a)
    (hcap : b.capacity ≠ 0) :
    Session.readStep ⟨a, l ++ '\n' :: rest, [], out, 0⟩ b =
      Outcome.next ⟨a, rest, [], out, 0⟩ { b with log := b.log ++ [(l ++ ['\n'], a)] } ∧
    Session.recvStep ⟨ra, rin, rline, rout, b.log.length⟩
        { b with log := b.log ++ [(l ++ ['\n'], a)] } =
      Outcome.next ⟨ra, rin, rline, rout ++ (l ++ ['\n']), b.log.length + 1⟩
        { b with log := b.log ++ [(l ++ ['\n'], a)] } := by
  refine ⟨readStep_line a l rest out 0 b hl hb, ?_⟩
  have hget : (b.log ++ [(l ++ ['\n'], a)]).getD b.log.length (([], 0) : Message)
      = (l ++ ['\n'], a) := by
    simp [List.getD_eq_getElem?_getD, List.getElem?_concat_length]
  have hrecv : Broadcast.recv { b with log := b.log ++ [(l ++ ['\n'], a)] } b.log.length
      = RecvResult.ok ((l ++ ['\n'], a) : Message) (b.log.length + 1) := by
    simp [Broadcast.recv, hget, Nat.lt_one_iff, hcap]
  simp [Session.recvStep, hrecv, hra]

/-- Witness for C6: the bytes h i newline read from the sender at address 1
are exactly the bytes the receiver at address 2 writes to its socket. -/
theorem verbatim_relay_witness :
    ('\n' ∉ ['h', 'i']) ∧ (Broadcast.receiverCount ⟨10, [], 2⟩ ≠ 0) ∧
    ((2 : Addr) ≠ 1) ∧ (Broadcast.capacity ⟨10, [], 2⟩ ≠ 0) ∧
    Session.readStep ⟨1, ['h', 'i'] ++ '\n' :: [], [], [], 0⟩ ⟨10, [], 2⟩ =
      Outcome.next ⟨1, [], [], [], 0⟩ ⟨10, [(['h', 'i'] ++ ['\n'], 1)], 2⟩ ∧
    Session.recvStep ⟨2, [], [], [], 0⟩ ⟨10, [(['h', 'i'] ++ ['\n'], 1)], 2⟩ =
      Outcome.next ⟨2, [], [], [] ++ (['h', 'i'] ++ ['\n']), 1⟩
        ⟨10, [(['h', 'i'] ++ ['\n'], 1)], 2⟩ :=
  ⟨by decide, by decide, by decide, by decide,
   (verbatim_relay ['h', 'i'] [] [] [] [] [] 1 2 ⟨10, [], 2⟩ (by decide) (by decide)
      (by decide) (by decide)).1,
   (verbatim_relay ['h', 'i'] [] [] [] [] [] 1 2 ⟨10, [], 2⟩ (by decide) (by decide)
      (by decide) (by decide)).2⟩

/-- Reading a slot other than the one being written is unaffected. -/
theorem getD_set_ne (l : List (Option Session)) (i j : Nat) (x : Option Session)
    (h : j ≠ i) : (l.set i x).getD j none = l.getD j none := by
  simp [List.getD_eq_getElem?_getD, List.getElem?_set_ne (Ne.symm h)]

/-- C7: a failure (read error, write error — the `fail` branch — or stream
closure, or any panic of the task) in the session at slot `i` changes no
other session's state: every other slot is exactly as before, for every way
the iteration can resolve; a pure failure also leaves the channel's message
log untouched, and tears down the failed session's own slot. -/
theorem session_failure_isolated (sys : System) (i j : Nat) (br : Branch) (hij : j ≠ i) :
    (sys.stepAt i br).sessions.getD j none = sys.sessions.getD j none ∧
    (sys.stepAt i Branch.fail).bus.log = sys.bus.log ∧
    ((sys.sessions.getD i none).isSome →
      (sys.stepAt i Branch.fail).sessions.getD i none = none) := by
  refine ⟨?_, ?_, ?_⟩
  · cases h : sys.sessions.getD i none with
    | none =>
      unfold System.stepAt
      rw [h]
    | some s =>
      unfold System.stepAt
      rw [h]
      dsimp only
      cases s.step sys.bus br with
      | next s2 b2 => exact getD_set_ne sys.sessions i j (some s2) hij
      | closed s2 b2 => exact getD_set_ne sys.sessions i j none hij
      | fatal b2 => exact getD_set_ne sys.sessions i j none hij
  · cases h : sys.sessions.getD i none with
    | none =>
      unfold System.stepAt
      rw [h]
    | some s =>
      unfold System.stepAt
      rw [h]
      rfl
  · intro hsome
    cases h : sys.sessions.getD i none with
    | none => rw [h] at hsome; simp at hsome
    | some s =>
      have hlt : i < sys.sessions.length := by
        by_contra hge
        rw [List.getD_eq_getElem?_getD,
          List.getElem?_eq_none (Nat.le_of_not_lt hge)] at h
        simp at h
      unfold System.stepAt
      rw [h]
      show (sys.sessions.set i none).getD i none = none
      rw [List.getD_eq_getElem?_getD, List.getElem?_set_self hlt]
      rfl

/-- Witness for C7: with two live sessions, a fatal I/O failure in slot 0
leaves slot 1 exactly as it was, the log untouched, and slot 0 torn down. -/
theorem session_failure_isolated_witness :
    ((1 : Nat) ≠ 0) ∧
    (System.stepAt ⟨⟨10, [], 2⟩, [some ⟨1, [], [], [], 0⟩, some ⟨2, [], [], [], 0⟩]⟩
        0 Branch.fail).sessions.getD 1 none =
      ([some ⟨1, [], [], [], 0⟩, some ⟨2, [], [], [], 0⟩] :
        List (Option Session)).getD 1 none ∧
    (System.stepAt ⟨⟨10, [], 2⟩, [some ⟨1, [], [], [], 0⟩, some ⟨2, [], [], [], 0⟩]⟩
        0 Branch.fail).bus.log = [] ∧
    (System.stepAt ⟨⟨10, [], 2⟩, [some ⟨1, [], [], [], 0⟩, some ⟨2, [], [], [], 0⟩]⟩
        0 Branch.fail).sessions.getD 0 none = none :=
  ⟨by decide,
   (session_failure_isolated ⟨⟨10, [], 2⟩, [some ⟨1, [], [], [], 0⟩, some ⟨2, [], [], [], 0⟩]⟩
      0 1 Branch.fail (by decide)).1,
   (session_failure_isolated ⟨⟨10, [], 2⟩, [some ⟨1, [], [], [], 0⟩, some ⟨2, [], [], [], 0⟩]⟩
      0 1 Branch.fail (by decide)).2.1,
   (session_failure_isolated ⟨⟨10, [], 2⟩, [some ⟨1, [], [], [], 0⟩, some ⟨2, [], [], [], 0⟩]⟩
      0 1 Branch.fail (by decide)).2.2 (by decide)⟩

/-- C8: an accept error aborts the whole process: the acceptor loop run on
any event sequence whose first error follows some successful connections
stops exactly there with the abort flag set, processing none of the later
events — it neither retries nor accepts further connections. -/
theorem accept_error_aborts (pre post : List AcceptEvent) (sys : System)
    (hpre : AcceptEvent.err ∉ pre) :
    acceptorRun (pre ++ AcceptEvent.err :: post) sys = ((acceptorRun pre sys).1, true) := by
  induction pre generalizing sys with
  | nil => rfl
  | cons e rest ih =>
    cases e with
    | conn a inp =>
      have hr : AcceptEvent.err ∉ rest := fun hm => hpre (List.mem_cons_of_mem _ hm)
      simp only [List.cons_append, acceptorRun]
      exact ih (spawnSession sys a inp) hr
    | err => exact absurd (List.mem_cons_self _ _) hpre

/-- Witness for C8: one successful connection, then an accept error, then a
would-be connection that is never accepted. -/
theorem accept_error_aborts_witness :
    (AcceptEvent.err ∉ [AcceptEvent.conn 1 ['x', '\n']]) ∧
    acceptorRun ([AcceptEvent.conn 1 ['x', '\n']] ++
        AcceptEvent.err :: [AcceptEvent.conn 2 []]) ⟨⟨10, [], 0⟩, []⟩ =
      ((acceptorRun [AcceptEvent.conn 1 ['x', '\n']] ⟨⟨10, [], 0⟩, []⟩).1, true) :=
  ⟨by decide,
   accept_error_aborts [AcceptEvent.conn 1 ['x', '\n']] [AcceptEvent.conn 2 []]
     ⟨⟨10, [], 0⟩, []⟩ (by decide)⟩

/-- A list with a live session at some slot has a positive live count. -/
theorem countSome_pos_of_getD (l : List (Option Session)) (i : Nat) (s : Session)
    (h : l.getD i none = some s) : 0 < countSome l := by
  induction l generalizing i with
  | nil => simp [List.getD_nil] at h
  | cons hd tl ih =>
    cases i with
    | zero =>
      cases hd with
      | none => simp [List.getD_cons_zero] at h
      | some t => simp [countSome]
    | succ n =>
      cases hd with
      | none => exact ih n (by simpa [List.getD_cons_succ] using h)
      | some t => simp [countSome]

/-- Live sessions split over an append. -/
theorem countSome_append (l1 l2 : List (Option Session)) :
    countSome (l1 ++ l2) = countSome l1 + countSome l2 := by
  induction l1 with
  | nil => simp [countSome]
  | cons hd tl ih =>
    cases hd with
    | none => simp [countSome, ih]
    | some s =>
      simp [countSome, ih]
      omega

/-- Replacing a live slot by a live session keeps the live count. -/
theorem countSome_set_some (l : List (Option Session)) (i : Nat) (s t : Session)
    (h : l.getD i none = some s) : countSome (l.set i (some t)) = countSome l := by
  induction l generalizing i with
  | nil => simp [List.getD_nil] at h
  | cons hd tl ih =>
    cases i with
    | zero =>
      cases hd with
      | none => simp [List.getD_cons_zero] at h
      | some u => simp [countSome]
    | succ n =>
      cases hd with
      | none =>
        simpa [countSome] using ih n (by simpa [List.getD_cons_succ] using h)
      | some u =>
        simpa [countSome] using ih n (by simpa [List.getD_cons_succ] using h)

/-- Tearing down a live slot drops the live count by exactly one. -/
theorem countSome_set_none (l : List (Option Session)) (i : Nat) (s : Session)
    (h : l.getD i none = some s) : countSome (l.set i none) + 1 = countSome l := by
  induction l generalizing i with
  | nil => simp [List.getD_nil] at h
  | cons hd tl ih =>
    cases i with
    | zero =>
      cases hd with
      | none => simp [List.getD_cons_zero] at h
      | some u => simp [countSome]
    | succ n =>
      cases hd with
      | none =>
        simpa [countSome] using ih n (by simpa [List.getD_cons_succ] using h)
      | some u =>
        simpa [countSome] using ih n (by simpa [List.getD_cons_succ] using h)

/-- Neither `select!` branch of a session ever registers or drops a
receiver handle: the channel's receiver count survives every iteration. -/
theorem step_receiverCount (s : Session) (b : Broadcast) (br : Branch) :
    ((s.step b br).bus).receiverCount = b.receiverCount := by
  cases br with
  | read =>
    unfold Session.step Session.readStep
    by_cases h0 : (read_line s.input s.line).1 = 0
    · simp [h0, Outcome.bus]
    · simp only [h0, if_false]
      unfold Broadcast.send
      by_cases hrc : b.receiverCount = 0
      · simp [hrc, Outcome.bus]
      · simp [hrc, Outcome.bus]
  | recv =>
    rcases recvStep_preserves s b with hf | ⟨s2, hs2, _⟩
    · simp [Session.step, hf, Outcome.bus]
    · simp [Session.step, hs2, Outcome.bus]
  | fail => rfl

/-- The process state after startup (main.rs lines 34-35): an empty channel
of capacity 10 whose one receiver handle is the `_rx` that `main` keeps
alive forever, and no sessions yet. -/
def initialSystem : System := ⟨⟨10, [], 1⟩, []⟩

/-- The receiver-count bound holds at startup. -/
theorem inv_initial :
    countSome initialSystem.sessions ≤ initialSystem.bus.receiverCount :=
  Nat.zero_le 1

/-- Accepting a connection preserves the receiver-count bound: the spawned
session's subscriber handle is exactly the one just registered. -/
theorem inv_spawnSession (sys : System) (a : Addr) (inp : List Char)
    (hinv : countSome sys.sessions ≤ sys.bus.receiverCount) :
    countSome (spawnSession sys a inp).sessions ≤
      (spawnSession sys a inp).bus.receiverCount := by
  simp only [spawnSession, Broadcast.subscribe, countSome_append, countSome]
  omega

/-- Every session-loop iteration, teardown included, preserves the
receiver-count bound. -/
theorem inv_stepAt (sys : System) (i : Nat) (br : Branch)
    (hinv : countSome sys.sessions ≤ sys.bus.receiverCount) :
    countSome (sys.stepAt i br).sessions ≤ (sys.stepAt i br).bus.receiverCount := by
  cases h : sys.sessions.getD i none with
  | none =>
    unfold System.stepAt
    rw [h]
    exact hinv
  | some s =>
    have hrc := step_receiverCount s sys.bus br
    unfold System.stepAt
    rw [h]
    dsimp only
    cases ho : s.step sys.bus br with
    | next s2 b2 =>
      rw [ho] at hrc
      simp only [Outcome.bus] at hrc
      have hc := countSome_set_some sys.sessions i s s2 h
      simp only [hc, hrc]
      exact hinv
    | closed s2 b2 =>
      rw [ho] at hrc
      simp only [Outcome.bus] at hrc
      have hc := countSome_set_none sys.sessions i s h
      simp only [hrc]
      omega
    | fatal b2 =>
      rw [ho] at hrc
      simp only [Outcome.bus] at hrc
      have hc := countSome_set_none sys.sessions i s h
      simp only [hrc]
      omega

/-- The whole acceptor loop preserves the receiver-count bound. -/
theorem inv_acceptorRun (evs : List AcceptEvent) :
    ∀ sys : System, countSome sys.sessions ≤ sys.bus.receiverCount →
      countSome (acceptorRun evs sys).1.sessions ≤
        (acceptorRun evs sys).1.bus.receiverCount := by
  induction evs with
  | nil => intro sys h; exact h
  | cons e rest ih =>
    intro sys h
    cases e with
    | conn a inp =>
      simp only [acceptorRun]
      exact ih _ (inv_spawnSession sys a inp h)
    | err => exact h

/-- C9: while any session is live, its own subscriber handle (created at
accept time) keeps the channel's receiver count positive — under the bound,
established above for every reachable state, that the count of live
sessions never exceeds the receiver count — so `send` never takes its
zero-subscriber error branch and the `unwrap` on it cannot panic a
session's read branch for that reason. -/
theorem send_error_unreachable (sys : System) (i : Nat) (s : Session)
    (hinv : countSome sys.sessions ≤ sys.bus.receiverCount)
    (hs : sys.sessions.getD i none = some s) :
    sys.bus.receiverCount ≠ 0 ∧
    (∀ m : Message, sys.bus.send m ≠ none) ∧
    (∀ b2 : Broadcast, Session.readStep s sys.bus ≠ Outcome.fatal b2) := by
  have hpos : 0 < sys.bus.receiverCount :=
    Nat.lt_of_lt_of_le (countSome_pos_of_getD sys.sessions i s hs) hinv
  have hne : sys.bus.receiverCount ≠ 0 := Nat.pos_iff_ne_zero.mp hpos
  refine ⟨hne, fun m => by simp [Broadcast.send, hne], fun b2 => ?_⟩
  unfold Session.readStep
  by_cases h0 : (read_line s.input s.line).1 = 0
  · simp [h0]
  · simp [h0, Broadcast.send, hne]

/-- Witness for C9: a one-session system satisfying the receiver-count
bound, whose publish cannot hit the error branch. -/
theorem send_error_unreachable_witness :
    (countSome [some ⟨5, ['h', '\n'], [], [], 0⟩] ≤
      Broadcast.receiverCount ⟨10, [], 2⟩) ∧
    (([some ⟨5, ['h', '\n'], [], [], 0⟩] : List (Option Session)).getD 0 none =
      some ⟨5, ['h', '\n'], [], [], 0⟩) ∧
    Broadcast.send ⟨10, [], 2⟩ ((['h', '\n'], 5) : Message) ≠ none ∧
    Session.readStep ⟨5, ['h', '\n'], [], [], 0⟩ ⟨10, [], 2⟩ ≠
      Outcome.fatal ⟨10, [], 2⟩ :=
  ⟨by decide, rfl,
   (send_error_unreachable ⟨⟨10, [], 2⟩, [some ⟨5, ['h', '\n'], [], [], 0⟩]⟩ 0
      ⟨5, ['h', '\n'], [], [], 0⟩ (by decide) rfl).2.1 ((['h', '\n'], 5) : Message),
   (send_error_unreachable ⟨⟨10, [], 2⟩, [some ⟨5, ['h', '\n'], [], [], 0⟩]⟩ 0
      ⟨5, ['h', '\n'], [], [], 0⟩ (by decide) rfl).2.2 ⟨10, [], 2⟩⟩

end Chat
